import Mathlib

/-!
Shallow embedding of the demo program in src/main.rs.

The program runs eleven independent routines in a fixed order, each
writing lines to standard output.  Each routine is embedded as a pure
Lean function producing the list of printed lines; external effects
(the file system, runtime creation, the process argument list, the
hash-map iteration order, and the thread scheduler) are explicit
parameters.  A Rust panic (an unwrap on an Err value) is modelled as
Except.error, so a program run that aborts is an Except.error value and
a run that exits with code 0 is an Except.ok value.

Rust strings are embedded as List Char together with the UTF-8 byte
size of each character, because String::len in Rust counts UTF-8 bytes.
The f64 arithmetic of the circle-area routine is embedded over exact
rationals; at the literals the program uses (3.14159, 2.0, 5.0) the
double computation realises the same equalities, since scaling by the
exact power of two 4.0 commutes with rounding to nearest.
-/

namespace RustDemo

/-- Number of bytes of the UTF-8 encoding of one character, mirroring
the encoding Rust strings use (String::len counts these bytes). -/
def charUtf8Size (c : Char) : Nat :=
  if c.toNat < 0x80 then 1
  else if c.toNat < 0x800 then 2
  else if c.toNat < 0x10000 then 3
  else 4

/-- Embedding of `fn calculate_length(s: &String) -> usize { s.len() }`
(src/main.rs lines 55-57): the UTF-8 byte length of the string. -/
def calculate_length (s : List Char) : Nat :=
  (s.map charUtf8Size).sum

/-- Embedding of `ownership_and_borrowing` (src/main.rs lines 48-53):
the owned string is borrowed for the length computation and is still
printed afterwards, so the printed line contains both the owner and the
computed length. -/
def ownership_and_borrowing : List String :=
  let owned_string := "I am owned!"
  let length := calculate_length owned_string.data
  ["--- Ownership and Borrowing ---",
   "Length of \x27" ++ owned_string ++ "\x27 is " ++ toString length]

/-- Embedding of `const PI: f64 = 3.14159` (src/main.rs line 8),
over exact rationals. -/
def PI : ℚ := 3.14159

/-- Embedding of `struct Point<T> { x: T, y: T }` (src/main.rs lines 70-73). -/
structure Point (T : Type) where
  x : T
  y : T

/-- Embedding of `struct Circle { radius: f64 }` (src/main.rs lines 79-81). -/
structure Circle where
  radius : ℚ

/-- Embedding of `impl Shape for Circle` (src/main.rs lines 83-87):
`PI * self.radius * self.radius`. -/
def Circle.area (c : Circle) : ℚ := PI * c.radius * c.radius

/-- Rendering of a nonnegative rational with two decimal places,
mirroring the `{:.2}` format used at src/main.rs line 67 (round to
nearest; the value formatted by the program is not a tie). -/
def format2 (q : ℚ) : String :=
  let n : ℤ := round (q * 100)
  let ip := n / 100
  let fp := n % 100
  toString ip ++ "." ++ (if fp < 10 then "0" ++ toString fp else toString fp)

/-- Embedding of `generics_and_traits` (src/main.rs lines 60-68). -/
def generics_and_traits : List String :=
  let point : Point Int := ⟨10, 20⟩
  let circle : Circle := ⟨5⟩
  ["--- Generics and Traits ---",
   "Point coordinates: (" ++ toString point.x ++ ", " ++ toString point.y ++ ")",
   "Circle area: " ++ format2 circle.area]

/-- Embedding of `enum Message { Hello(String), Quit }`
(src/main.rs lines 100-103). -/
inductive Message where
  | Hello (s : String)
  | Quit

/-- The match arms of `enums_and_pattern_matching` (src/main.rs lines
94-97), as a function from the matched value to the printed line. -/
def matchMessage : Message → String
  | Message.Hello msg => "Received message: " ++ msg
  | Message.Quit => "Quitting"

/-- Embedding of `enums_and_pattern_matching` (src/main.rs lines 90-98):
the top level constructs the Hello variant carrying "Rust". -/
def enums_and_pattern_matching : List String :=
  ["--- Enums and Pattern Matching ---", matchMessage (Message.Hello "Rust")]

/-- Embedding of `error_handling` (src/main.rs lines 106-114).  The file
system is a parameter mapping a path to the outcome of
`std::fs::read_to_string`; both outcomes are handled by the match and
the routine is total, so neither outcome aborts the program. -/
def error_handling (fs : String → Except String String) : List String :=
  let filepath := "nonexistent_file.txt"
  match fs filepath with
  | Except.ok content => ["--- Error Handling ---", "File content: " ++ content]
  | Except.error e => ["--- Error Handling ---", "Error reading file: " ++ e]

/-- Debug rendering of a list of integers, mirroring Rust `{:?}` on a
`Vec` of integers. -/
def rustDebugIntList (xs : List Int) : String :=
  "[" ++ String.intercalate ", " (xs.map toString) ++ "]"

/-- Debug rendering of a list of strings, mirroring Rust `{:?}` on a
`Vec<String>`. -/
def rustDebugStrList (xs : List String) : String :=
  "[" ++ String.intercalate ", " (xs.map (fun s => "\"" ++ s ++ "\"")) ++ "]"

/-- The literal `vec![1, 2, 3, 4]` of src/main.rs line 120. -/
def numbers : List Int := [1, 2, 3, 4]

/-- The map derivation `numbers.iter().map(|x| x * 2).collect()`
(src/main.rs line 121). -/
def doubled : List Int := numbers.map (fun x => x * 2)

/-- The filter derivation
`numbers.into_iter().filter(|x| x % 2 == 0).collect()`
(src/main.rs line 124). -/
def even_numbers : List Int := numbers.filter (fun x => x % 2 == 0)

/-- Embedding of `iterators_and_closures` (src/main.rs lines 117-126). -/
def iterators_and_closures : List String :=
  ["--- Iterators and Closures ---",
   "Doubled numbers: " ++ rustDebugIntList doubled,
   "Even numbers: " ++ rustDebugIntList even_numbers]

/-- Embedding of `async_runtime_demo` (src/main.rs lines 129-137).  The
outcome of `tokio::runtime::Runtime::new()` is a parameter;
`.unwrap()` on an Err value is a panic, modelled as Except.error.  The
spawned task itself only prints and sleeps, so the awaited join handle
cannot carry a task panic. -/
def async_runtime_demo (runtimeNew : Except String Unit) :
    Except String (List String) :=
  match runtimeNew with
  | Except.error e => Except.error e
  | Except.ok _ =>
      Except.ok ["--- Async Programming ---",
                 "Async task started...",
                 "Async task finished!"]

/-- Program counter of one worker thread of `multithreading_with_mutex`
(src/main.rs lines 152-158).  Each thread runs
`let mut num = counter.lock().unwrap(); *num += 1;` and then releases
the lock when the guard is dropped.  The increment is split into its
read and its write so that an interleaving could in principle lose an
update; the mutex is what rules that out.  `readDone v` records the
value the thread read while holding the lock. -/
inductive TPC where
  | ready
  | locked
  | readDone (v : Nat)
  | writeDone
  | done
deriving DecidableEq

/-- Shared state of `multithreading_with_mutex`: the mutex (which thread
holds it, if any), the counter it guards (initialized to 0 at
src/main.rs line 149), and the program counter of each of the 5
threads. -/
structure MState where
  lock : Option (Fin 5)
  counter : Nat
  pcs : Fin 5 → TPC

/-- One scheduler step: thread `t` takes its next action if it is
enabled.  A thread whose next action is acquiring a held lock, or which
is already done, does nothing (it is blocked).  Acquire, read, write
and release are each atomic. -/
def mutexStep (s : MState) (t : Fin 5) : MState :=
  match s.pcs t with
  | TPC.ready =>
      match s.lock with
      | none => { s with lock := some t, pcs := Function.update s.pcs t TPC.locked }
      | some _ => s
  | TPC.locked => { s with pcs := Function.update s.pcs t (TPC.readDone s.counter) }
  | TPC.readDone v => { s with counter := v + 1, pcs := Function.update s.pcs t TPC.writeDone }
  | TPC.writeDone => { s with lock := none, pcs := Function.update s.pcs t TPC.done }
  | TPC.done => s

/-- Initial state: lock free, counter 0, all 5 threads about to run
their closure. -/
def initState : MState :=
  { lock := none, counter := 0, pcs := fun _ => TPC.ready }

/-- Run a schedule: the list of thread identifiers, in the order the
scheduler lets them act. -/
def runSched (s : MState) (sched : List (Fin 5)) : MState :=
  sched.foldl mutexStep s

/-- All 5 threads have finished, i.e. every `handle.join()` at
src/main.rs lines 161-163 has returned. -/
def allDone (s : MState) : Prop :=
  ∀ t, s.pcs t = TPC.done

instance (s : MState) : Decidable (allDone s) := by
  unfold allDone
  infer_instance

/-- Contribution of one thread to the counter: 1 once its write has
happened, 0 before. -/
def tpcWeight : TPC → Nat
  | TPC.writeDone => 1
  | TPC.done => 1
  | _ => 0

/-- A thread is inside the critical section (between a successful lock
acquisition and the release of the guard). -/
def isCritical (p : TPC) : Prop :=
  p = TPC.locked ∨ (∃ v, p = TPC.readDone v) ∨ p = TPC.writeDone

/-- Invariant of the mutex machine: only the lock holder is in the
critical section, a value read under the lock is still current, and the
counter equals the number of writes performed so far. -/
def MutexInv (s : MState) : Prop :=
  (∀ t, isCritical (s.pcs t) → s.lock = some t) ∧
  (∀ t v, s.pcs t = TPC.readDone v → v = s.counter) ∧
  s.counter = ∑ t, tpcWeight (s.pcs t)

/-- Embedding of `multithreading_with_mutex` (src/main.rs lines
146-166), as the lines it prints under a given schedule. -/
def multithreading_with_mutex (sched : List (Fin 5)) : List String :=
  ["--- Multithreading with Mutex ---",
   "Counter value: " ++ toString (runSched initState sched).counter]

/-- Embedding of `smart_pointers_demo` (src/main.rs lines 169-177). -/
def smart_pointers_demo : List String :=
  let boxed_value : Int := 42
  let rc_value : String := "Shared"
  ["--- Smart Pointers ---",
   "Boxed value: " ++ toString boxed_value,
   "RC value: " ++ rc_value]

/-- Embedding of `HashMap::insert` on a map represented as an
association list: replace the value if the key is present, append the
pair otherwise. -/
def hashInsert (m : List (String × Int)) (k : String) (v : Int) :
    List (String × Int) :=
  if m.any (fun p => p.1 == k) then
    m.map (fun p => if p.1 == k then (k, v) else p)
  else m ++ [(k, v)]

/-- The contents of the map built at src/main.rs lines 183-185. -/
def rustHashMap : List (String × Int) :=
  hashInsert (hashInsert [] "Key1" 100) "Key2" 200

/-- The line printed for one key/value pair at src/main.rs line 188. -/
def pairLine (p : String × Int) : String :=
  p.1 ++ ": " ++ toString p.2

/-- Embedding of `collections_demo` (src/main.rs lines 180-190).  The
iteration order of the hash map is unspecified, so the sequence of
pairs the loop sees is a parameter (constrained to a permutation of the
map contents in the theorems). -/
def collections_demo (iter : List (String × Int)) : List String :=
  "--- Collections ---" :: iter.map pairLine

/-- Runtime behaviour of `custom_macro!` (src/main.rs lines 193-197):
the expansion is a plain formatted print with a fixed prefix. -/
def custom_macro_line (msg : String) : String :=
  "Custom macro says: " ++ msg

/-- Embedding of `macros_demo` (src/main.rs lines 199-202). -/
def macros_demo : List String :=
  ["--- Macros ---", custom_macro_line "Hello from a macro!"]

/-- Embedding of `command_line_demo` (src/main.rs lines 205-214).
`args` is the full `env::args()` list, whose first element is the
program name by convention. -/
def command_line_demo (args : List String) : List String :=
  if args.length > 1 then
    ["--- Command-Line Arguments ---",
     "Arguments: " ++ rustDebugStrList (args.drop 1)]
  else
    ["--- Command-Line Arguments ---", "No arguments provided."]

/-- External inputs of one program run: the file system, the outcome of
creating the tokio runtime, the hash-map iteration order, the thread
schedule, and the process arguments. -/
structure Env where
  fs : String → Except String String
  runtimeNew : Except String Unit
  hashIter : List (String × Int)
  sched : List (Fin 5)
  args : List String

/-- Embedding of `main` (src/main.rs lines 10-45): the eleven routines
run in order.  Routines 1-5 and 7-11 are total in this model (nothing
in them can panic); the only abort point is the unwrap of
`Runtime::new()` in routine 6, so the run is an Except.error exactly
when that unwrap panics. -/
def runProgram (env : Env) : Except String (List String) :=
  match async_runtime_demo env.runtimeNew with
  | Except.error e => Except.error e
  | Except.ok asyncLines =>
      Except.ok
        (["--- Welcome to the Full Rust Demo ---"]
          ++ ownership_and_borrowing
          ++ generics_and_traits
          ++ enums_and_pattern_matching
          ++ error_handling env.fs
          ++ iterators_and_closures
          ++ asyncLines
          ++ multithreading_with_mutex env.sched
          ++ smart_pointers_demo
          ++ collections_demo env.hashIter
          ++ macros_demo
          ++ command_line_demo env.args)

/-- Every ASCII character occupies one UTF-8 byte, so on ASCII-only
strings the byte length equals the character count. -/
lemma calculate_length_eq_length_of_ascii (s : List Char)
    (h : ∀ c ∈ s, c.toNat < 128) : calculate_length s = s.length := by
  induction s with
  | nil => rfl
  | cons c cs ih =>
      have hc : charUtf8Size c = 1 := by
        have hlt := h c (by simp)
        unfold charUtf8Size
        rw [if_pos (by omega)]
      have ihh := ih (fun d hd => h d (by simp [hd]))
      simp only [calculate_length, List.map_cons, List.sum_cons,
        List.length_cons] at ihh ⊢
      omega

/-- Replacing the program counter of one thread changes the weight sum
by the difference of the two weights (stated without subtraction). -/
lemma sumWeight_update (pcs : Fin 5 → TPC) (t : Fin 5) (p : TPC) :
    (∑ u, tpcWeight (Function.update pcs t p u)) + tpcWeight (pcs t)
      = (∑ u, tpcWeight (pcs u)) + tpcWeight p := by
  have h1 : (∑ u, tpcWeight (Function.update pcs t p u))
      = ∑ u, Function.update (fun v => tpcWeight (pcs v)) t (tpcWeight p) u :=
    Finset.sum_congr rfl (fun u _ => by
      by_cases hu : u = t
      · subst hu
        simp
      · rw [Function.update_noteq hu, Function.update_noteq hu])
  rw [h1, Finset.sum_update_of_mem (Finset.mem_univ t),
    Finset.sum_eq_sum_diff_singleton_add (Finset.mem_univ t)
      (fun v => tpcWeight (pcs v))]
  omega

lemma tpcWeight_ready : tpcWeight TPC.ready = 0 := rfl

lemma tpcWeight_locked : tpcWeight TPC.locked = 0 := rfl

lemma tpcWeight_readDone (v : Nat) : tpcWeight (TPC.readDone v) = 0 := rfl

lemma tpcWeight_writeDone : tpcWeight TPC.writeDone = 1 := rfl

lemma tpcWeight_done : tpcWeight TPC.done = 1 := rfl

/-- One scheduler step preserves the mutex invariant. -/
lemma mutexStep_inv {s : MState} (hInv : MutexInv s) (t : Fin 5) :
    MutexInv (mutexStep s t) := by
  obtain ⟨h1, h2, h3⟩ := hInv
  cases hpc : s.pcs t with
  | ready =>
      cases hl : s.lock with
      | none =>
          simp only [mutexStep, hpc, hl]
          refine ⟨?_, ?_, ?_⟩
          · intro u hc
            dsimp only at hc ⊢
            by_cases hu : u = t
            · subst hu
              rfl
            · rw [Function.update_noteq hu] at hc
              have := h1 u hc
              rw [hl] at this
              exact Option.noConfusion this
          · intro u v huv
            dsimp only at huv ⊢
            by_cases hu : u = t
            · subst hu
              rw [Function.update_same] at huv
              exact TPC.noConfusion huv
            · rw [Function.update_noteq hu] at huv
              have := h1 u (Or.inr (Or.inl ⟨v, huv⟩))
              rw [hl] at this
              exact Option.noConfusion this
          · dsimp only
            have hs := sumWeight_update s.pcs t TPC.locked
            rw [hpc, tpcWeight_ready, tpcWeight_locked] at hs
            omega
      | some w =>
          simp only [mutexStep, hpc, hl]
          exact ⟨h1, h2, h3⟩
  | locked =>
      simp only [mutexStep, hpc]
      refine ⟨?_, ?_, ?_⟩
      · intro u hc
        dsimp only at hc ⊢
        by_cases hu : u = t
        · subst hu
          exact h1 u (Or.inl hpc)
        · rw [Function.update_noteq hu] at hc
          exact h1 u hc
      · intro u v huv
        dsimp only at huv ⊢
        by_cases hu : u = t
        · subst hu
          rw [Function.update_same] at huv
          injection huv with hv
          exact hv.symm
        · rw [Function.update_noteq hu] at huv
          exact h2 u v huv
      · dsimp only
        have hs := sumWeight_update s.pcs t (TPC.readDone s.counter)
        rw [hpc, tpcWeight_locked, tpcWeight_readDone] at hs
        omega
  | readDone v =>
      have hv : v = s.counter := h2 t v hpc
      have hlt : s.lock = some t := h1 t (Or.inr (Or.inl ⟨v, hpc⟩))
      simp only [mutexStep, hpc]
      refine ⟨?_, ?_, ?_⟩
      · intro u hc
        dsimp only at hc ⊢
        by_cases hu : u = t
        · subst hu
          exact hlt
        · rw [Function.update_noteq hu] at hc
          exact h1 u hc
      · intro u w huw
        dsimp only at huw ⊢
        by_cases hu : u = t
        · subst hu
          rw [Function.update_same] at huw
          exact TPC.noConfusion huw
        · rw [Function.update_noteq hu] at huw
          have hlu := h1 u (Or.inr (Or.inl ⟨w, huw⟩))
          rw [hlt] at hlu
          exact absurd (Option.some.inj hlu) (fun he => hu he.symm)
      · dsimp only
        have hs := sumWeight_update s.pcs t TPC.writeDone
        rw [hpc, tpcWeight_readDone, tpcWeight_writeDone] at hs
        omega
  | writeDone =>
      have hlt : s.lock = some t := h1 t (Or.inr (Or.inr hpc))
      simp only [mutexStep, hpc]
      refine ⟨?_, ?_, ?_⟩
      · intro u hc
        dsimp only at hc ⊢
        by_cases hu : u = t
        · subst hu
          rw [Function.update_same] at hc
          rcases hc with h | ⟨w, h⟩ | h
          · exact TPC.noConfusion h
          · exact TPC.noConfusion h
          · exact TPC.noConfusion h
        · rw [Function.update_noteq hu] at hc
          have hlu := h1 u hc
          rw [hlt] at hlu
          exact absurd (Option.some.inj hlu) (fun he => hu he.symm)
      · intro u w huw
        dsimp only at huw ⊢
        by_cases hu : u = t
        · subst hu
          rw [Function.update_same] at huw
          exact TPC.noConfusion huw
        · rw [Function.update_noteq hu] at huw
          have hlu := h1 u (Or.inr (Or.inl ⟨w, huw⟩))
          rw [hlt] at hlu
          exact absurd (Option.some.inj hlu) (fun he => hu he.symm)
      · dsimp only
        have hs := sumWeight_update s.pcs t TPC.done
        rw [hpc, tpcWeight_writeDone, tpcWeight_done] at hs
        omega
  | done =>
      simp only [mutexStep, hpc]
      exact ⟨h1, h2, h3⟩

/-- The initial state satisfies the mutex invariant. -/
lemma mutexInv_initState : MutexInv initState := by
  refine ⟨?_, ?_, ?_⟩
  · intro t hc
    rcases hc with h | ⟨v, h⟩ | h
    · exact TPC.noConfusion h
    · exact TPC.noConfusion h
    · exact TPC.noConfusion h
  · intro t v h
    exact TPC.noConfusion h
  · simp [initState, tpcWeight]

/-- The mutex invariant holds after any schedule. -/
lemma mutexInv_runSched (sched : List (Fin 5)) (s : MState)
    (h : MutexInv s) : MutexInv (runSched s sched) := by
  induction sched generalizing s with
  | nil => exact h
  | cons t ts ih => exact ih _ (mutexStep_inv h t)

/-- In an invariant state where all threads are done, the counter is 5. -/
lemma counter_of_allDone {s : MState} (hInv : MutexInv s)
    (hd : allDone s) : s.counter = 5 := by
  obtain ⟨-, -, h3⟩ := hInv
  rw [h3]
  calc (∑ t, tpcWeight (s.pcs t))
      = ∑ _t : Fin 5, 1 :=
        Finset.sum_congr rfl (fun t _ => by rw [hd t, tpcWeight_done])
    _ = 5 := by simp

/-- C1 (counterexample): the claim that calculate_length returns the
character count of every text is false, because String::len counts
UTF-8 bytes: the one-character string made of the two-byte character
LATIN SMALL LETTER E WITH ACUTE has byte length 2 and character
count 1. -/
theorem calculate_length_char_count_cex :
    ¬ ∀ s : List Char, calculate_length s = s.length := by
  intro h
  exact absurd (h ['é']) (by decide)

/-- C1 (amended): calculate_length returns the UTF-8 byte length, which
equals the character count on every ASCII-only text; for "Rust" it
returns exactly 4, and the borrowing routine still prints the original
owned value after the call, so the owner is unchanged and usable. -/
theorem calculate_length_ascii_spec (s : List Char)
    (h : ∀ c ∈ s, c.toNat < 128) :
    calculate_length s = s.length ∧
    calculate_length (String.data "Rust") = 4 ∧
    ownership_and_borrowing =
      ["--- Ownership and Borrowing ---",
       "Length of \x27I am owned!\x27 is 11"] :=
  ⟨calculate_length_eq_length_of_ascii s h, by decide, by decide⟩

/-- Witness for C1: the amended theorem evaluated at the concrete input
"Rust". -/
theorem calculate_length_ascii_spec_witness :
    calculate_length (String.data "Rust") = (String.data "Rust").length :=
  (calculate_length_ascii_spec (String.data "Rust") (by decide)).1

/-- C10: calculate_length returns the UTF-8 byte length, so it equals
the character count on every ASCII-only string and strictly exceeds it
on a string containing a multi-byte character. -/
theorem calculate_length_utf8_bytes :
    (∀ s : List Char, (∀ c ∈ s, c.toNat < 128) →
       calculate_length s = s.length) ∧
    calculate_length ['é'] > (['é'] : List Char).length :=
  ⟨calculate_length_eq_length_of_ascii, by decide⟩

/-- Witness for C10: the ASCII part evaluated at the concrete input
"Hi". -/
theorem calculate_length_utf8_bytes_witness :
    calculate_length (String.data "Hi") = (String.data "Hi").length :=
  calculate_length_utf8_bytes.1 (String.data "Hi") (by decide)

/-- C4: the circle area is the fixed constant 3.14159 times the square
of the radius: for radius 2 it is exactly 12.56636 (the equality the
unit test test_circle_area asserts), and for radius 5 the area printed
to 2 decimal places is "78.54", as in the generics routine output. -/
theorem circle_area_spec :
    Circle.area ⟨2⟩ = (12.56636 : ℚ) ∧
    format2 (Circle.area ⟨5⟩) = "78.54" ∧
    generics_and_traits =
      ["--- Generics and Traits ---",
       "Point coordinates: (10, 20)",
       "Circle area: 78.54"] := by
  have h2 : Circle.area ⟨2⟩ = (12.56636 : ℚ) := by
    norm_num [Circle.area, PI]
  have h5 : Circle.area ⟨5⟩ = (78.53975 : ℚ) := by
    norm_num [Circle.area, PI]
  have hr : round ((78.53975 : ℚ) * 100) = 7854 := by
    rw [round_eq, Int.floor_eq_iff]
    constructor
    · norm_num
    · norm_num
  have hf : format2 (Circle.area ⟨5⟩) = "78.54" := by
    simp only [format2, h5, hr]
    decide
  refine ⟨h2, hf, ?_⟩
  show ["--- Generics and Traits ---",
    "Point coordinates: (" ++ toString (10 : Int) ++ ", "
      ++ toString (20 : Int) ++ ")",
    "Circle area: " ++ format2 (Circle.area ⟨5⟩)] = _
  rw [hf]
  decide

/-- C5: doubling the literal sequence [1,2,3,4] yields [2,4,6,8] in the
same order, and filtering it to even values yields [2,4] in the
original relative order; the routine prints both derivations. -/
theorem iterators_spec :
    doubled = [2, 4, 6, 8] ∧ even_numbers = [2, 4] ∧
    iterators_and_closures =
      ["--- Iterators and Closures ---",
       "Doubled numbers: [2, 4, 6, 8]",
       "Even numbers: [2, 4]"] :=
  ⟨by decide, by decide, by decide⟩

/-- C6: matching the Hello variant carrying "Rust" prints a message
containing "Rust", and matching the Quit variant yields the
quit-branch line "Quitting", which is never a greeting-branch line. -/
theorem message_match_spec :
    (∃ p q, matchMessage (Message.Hello "Rust") = p ++ "Rust" ++ q) ∧
    matchMessage Message.Quit = "Quitting" ∧
    ∀ m, matchMessage Message.Quit ≠ "Received message: " ++ m := by
  refine ⟨⟨"Received message: ", "", by decide⟩, rfl, ?_⟩
  intro m hm
  have hl := congrArg String.length hm
  rw [String.length_append] at hl
  have h8 : (matchMessage Message.Quit).length = 8 := rfl
  have h18 : ("Received message: " : String).length = 18 := rfl
  rw [h8, h18] at hl
  omega

/-- Witness for C6: the never-the-greeting-branch part evaluated at the
concrete payload "Rust". -/
theorem message_match_spec_witness :
    matchMessage Message.Quit ≠ "Received message: " ++ "Rust" :=
  message_match_spec.2.2 "Rust"

/-- C7: the error-handling routine reads the hardcoded path
"nonexistent_file.txt"; on failure it prints the error description, on
success it prints the contents, and the outcome of the read never
changes whether the program run aborts. -/
theorem error_handling_spec (fs : String → Except String String) :
    (∀ e, fs "nonexistent_file.txt" = Except.error e →
       error_handling fs =
         ["--- Error Handling ---", "Error reading file: " ++ e]) ∧
    (∀ c, fs "nonexistent_file.txt" = Except.ok c →
       error_handling fs =
         ["--- Error Handling ---", "File content: " ++ c]) ∧
    (∀ (env : Env) (fs2 : String → Except String String),
       (runProgram { env with fs := fs2 }).isOk = (runProgram env).isOk) := by
  refine ⟨?_, ?_, ?_⟩
  · intro e he
    simp [error_handling, he]
  · intro c hc
    simp [error_handling, hc]
  · intro env fs2
    cases h : env.runtimeNew with
    | error e => simp [runProgram, async_runtime_demo, h]
    | ok u => simp [runProgram, async_runtime_demo, h, Except.isOk, Except.toBool]

/-- Witness for C7: the failure branch evaluated at a file system where
the read fails with the usual missing-file error. -/
theorem error_handling_spec_witness :
    error_handling
        (fun _ => Except.error "No such file or directory (os error 2)") =
      ["--- Error Handling ---",
       "Error reading file: " ++ "No such file or directory (os error 2)"] :=
  (error_handling_spec
    (fun _ => Except.error "No such file or directory (os error 2)")).1
    "No such file or directory (os error 2)" rfl

/-- C3: for every schedule after which all 5 threads have finished (all
joins returned), the shared counter is exactly 5 and the routine prints
"Counter value: 5" — never less and never more, regardless of the
interleaving. -/
theorem mutex_counter_always_five (sched : List (Fin 5))
    (h : allDone (runSched initState sched)) :
    (runSched initState sched).counter = 5 ∧
    multithreading_with_mutex sched =
      ["--- Multithreading with Mutex ---", "Counter value: 5"] := by
  have hc :=
    counter_of_allDone (mutexInv_runSched sched initState mutexInv_initState) h
  refine ⟨hc, ?_⟩
  simp only [multithreading_with_mutex, hc]
  rfl

/-- Witness for C3: a concrete completing schedule that runs the 5
threads one after the other. -/
theorem mutex_counter_always_five_witness :
    allDone (runSched initState
      [0, 0, 0, 0, 1, 1, 1, 1, 2, 2, 2, 2, 3, 3, 3, 3, 4, 4, 4, 4]) ∧
    (runSched initState
      [0, 0, 0, 0, 1, 1, 1, 1, 2, 2, 2, 2, 3, 3, 3, 3, 4, 4, 4, 4]).counter
      = 5 :=
  ⟨by decide,
   (mutex_counter_always_five
      [0, 0, 0, 0, 1, 1, 1, 1, 2, 2, 2, 2, 3, 3, 3, 3, 4, 4, 4, 4]
      (by decide)).1⟩

/-- C2 (counterexample): a routine failure that is not caught and
printed locally: when the creation of the tokio runtime fails, routine
6 unwraps the Err value, so the failure propagates and the run aborts
instead of exiting with code 0. -/
theorem runProgram_runtime_failure_aborts :
    runProgram
      { fs := fun _ => Except.error "No such file or directory (os error 2)",
        runtimeNew := Except.error "runtime creation failed",
        hashIter := rustHashMap,
        sched := [],
        args := ["demo"] }
      = Except.error "runtime creation failed" := rfl

/-- C2 (amended): routine 4 catches and prints its failure locally;
routine 6 unwraps the runtime-creation result, so such a failure aborts
the run; on every path where runtime creation succeeds — for every
file-system outcome, argument list, schedule and map iteration order —
the whole eleven-routine sequence completes and the run exits with
code 0. -/
theorem runProgram_isOk_of_runtimeNew_ok (env : Env)
    (h : env.runtimeNew = Except.ok ()) :
    (runProgram env).isOk = true := by
  simp [runProgram, async_runtime_demo, h, Except.isOk, Except.toBool]

/-- Witness for C2: a concrete environment with a failing file read but
a successful runtime creation; the run completes. -/
theorem runProgram_isOk_of_runtimeNew_ok_witness :
    (runProgram
      { fs := fun _ => Except.error "No such file or directory (os error 2)",
        runtimeNew := Except.ok (),
        hashIter := rustHashMap,
        sched := [],
        args := ["demo"] }).isOk = true :=
  runProgram_isOk_of_runtimeNew_ok
    { fs := fun _ => Except.error "No such file or directory (os error 2)",
      runtimeNew := Except.ok (),
      hashIter := rustHashMap,
      sched := [],
      args := ["demo"] } rfl

/-- C8: with arguments beyond the program name the routine prints
exactly those arguments, in order, excluding the program name; with
none it prints the fixed no-arguments message. -/
theorem command_line_spec (prog : String) (rest : List String) :
    (rest ≠ [] → command_line_demo (prog :: rest) =
      ["--- Command-Line Arguments ---",
       "Arguments: " ++ rustDebugStrList rest]) ∧
    command_line_demo [prog] =
      ["--- Command-Line Arguments ---", "No arguments provided."] := by
  constructor
  · intro h
    cases rest with
    | nil => exact absurd rfl h
    | cons a as =>
        simp only [command_line_demo, List.length_cons]
        rw [if_pos (by omega)]
        rfl
  · simp only [command_line_demo, List.length_cons, List.length_nil]
    rw [if_neg (by omega)]

/-- Witness for C8: concrete invocation with two extra arguments. -/
theorem command_line_spec_witness :
    command_line_demo ["demo", "a", "b"] =
      ["--- Command-Line Arguments ---",
       "Arguments: " ++ rustDebugStrList ["a", "b"]] :=
  (command_line_spec "demo" ["a", "b"]).1 (by decide)

/-- C9: the map holds exactly the two fixed pairs, and for every
iteration order (any permutation of the contents) the routine prints
the two pair lines exactly once each, in some order. -/
theorem collections_spec :
    rustHashMap = [("Key1", 100), ("Key2", 200)] ∧
    ∀ iter : List (String × Int), iter.Perm rustHashMap →
      (collections_demo iter).Perm
        ["--- Collections ---", "Key1: 100", "Key2: 200"] := by
  constructor
  · decide
  · intro iter h
    have hm : (iter.map pairLine).Perm (rustHashMap.map pairLine) :=
      h.map pairLine
    have h2 : rustHashMap.map pairLine = ["Key1: 100", "Key2: 200"] := by
      decide
    rw [h2] at hm
    exact hm.cons "--- Collections ---"

/-- Witness for C9: the reversed iteration order prints both pairs. -/
theorem collections_spec_witness :
    (collections_demo [("Key2", 200), ("Key1", 100)]).Perm
      ["--- Collections ---", "Key1: 100", "Key2: 200"] :=
  collections_spec.2 [("Key2", 200), ("Key1", 100)] (by decide)

end RustDemo
